import Mathlib

/-!
Verification development for the gn-web-tracing-server replay frontend.

We shallowly embed the pure core of the repository:
* the resource classifier `getFilterType` (NetworkViewer),
* the timeline correlation engine (`closestIndex` / visible-subset
  computation in `NetworkViewer` and `ConsoleViewer` `useMemo` blocks),
* the bundle normalizer (`App`: `relativeMs` computation and sorting of
  both streams),
* the structured value renderer (`renderRemoteObject`, `renderPreview`,
  `renderPreviewValue`),
* the marker projector (`App` markers `useMemo`).

JavaScript numbers are modelled by `ℚ` (all timestamp arithmetic in the
source is exact on the inputs considered), JS strings by `String`,
optional/possibly-`undefined` fields by `Option`.  JS truthiness on
strings (`""` is falsy) and on numbers (`0` is falsy) is modelled
explicitly by the `jsOr*` helpers below.
-/

namespace Tracing

/-- JS `a || b` for string-or-undefined `a`, string-or-undefined `b`:
the empty string and `undefined` are falsy. -/
def jsOrO (a b : Option String) : Option String :=
  match a with
  | some s => if s = "" then b else some s
  | none => b

/-- JS `a || d` with a plain-string default `d`. -/
def jsOrD (a : Option String) (d : String) : String :=
  match a with
  | some s => if s = "" then d else s
  | none => d

/-- JS template interpolation `${x}` of a string-or-undefined value:
`undefined` prints as `"undefined"`. -/
def jsInterp (a : Option String) : String :=
  match a with
  | some s => s
  | none => "undefined"

/-- JS truthiness of a number-or-undefined field (`0` and `undefined`
are falsy). -/
def jsNumTruthy (a : Option ℚ) : Bool :=
  match a with
  | some v => v != 0
  | none => false

/-- JS `String.prototype.slice(0, n)`, modelled on code points. -/
def jsSlice (n : Nat) (s : String) : String :=
  ⟨s.toList.take n⟩

/-! ## Data model (src/frontend/types, fields used by the embedded core) -/

mutual

/-- `ObjectPreviewValue` from the frontend type declarations:
`subtype?`, `description?`, `overflow?` (absent collapses with `false`,
both are falsy in the source), `properties?`.  The `type` field and the
`entries` field are never read by the embedded renderer and are omitted. -/
inductive ObjectPreviewValue where
  | mk (subtype : Option String) (description : Option String)
       (overflow : Bool) (properties : Option (List PropertyPreviewValue))

/-- `PropertyPreviewValue` from the frontend type declarations. -/
inductive PropertyPreviewValue where
  | mk (name : String) (type : String) (value : Option String)
       (subtype : Option String) (valuePreview : Option ObjectPreviewValue)

end

def ObjectPreviewValue.subtype : ObjectPreviewValue → Option String
  | .mk s _ _ _ => s

def ObjectPreviewValue.description : ObjectPreviewValue → Option String
  | .mk _ d _ _ => d

def ObjectPreviewValue.overflow : ObjectPreviewValue → Bool
  | .mk _ _ o _ => o

def ObjectPreviewValue.properties : ObjectPreviewValue → Option (List PropertyPreviewValue)
  | .mk _ _ _ p => p

def PropertyPreviewValue.name : PropertyPreviewValue → String
  | .mk n _ _ _ _ => n

def PropertyPreviewValue.type : PropertyPreviewValue → String
  | .mk _ t _ _ _ => t

def PropertyPreviewValue.value : PropertyPreviewValue → Option String
  | .mk _ _ v _ _ => v

def PropertyPreviewValue.subtype : PropertyPreviewValue → Option String
  | .mk _ _ _ s _ => s

def PropertyPreviewValue.valuePreview : PropertyPreviewValue → Option ObjectPreviewValue
  | .mk _ _ _ _ vp => vp

/-- `RemoteObjectValue`: a captured runtime value.  The JS `value:
unknown` field is modelled by its JS string conversion (`String(value)`
/ template interpolation), which is the only way the renderer consumes
it. -/
structure RemoteObjectValue where
  type : String
  subtype : Option String := none
  value : Option String := none
  description : Option String := none
  className : Option String := none
  preview : Option ObjectPreviewValue := none

/-- `ConsoleLogEntry`, fields used by the correlation engine, the level
helpers and the marker projector. -/
structure ConsoleLogEntry where
  source : Option String := none
  level : Option String := none
  timestamp : ℚ := 0
  message : Option String := none
  args : Option (List RemoteObjectValue) := none
  relativeMs : ℚ := 0

/-- The nested `request` record of a `NetworkLogEntry`. -/
structure NetworkRequestInfo where
  method : Option String := none
  url : Option String := none

/-- `NetworkLogEntry`, fields used by the classifier, the correlation
engine, the normalizer and the marker projector. -/
structure NetworkLogEntry where
  request : Option NetworkRequestInfo := none
  method : Option String := none
  url : Option String := none
  resourceType : Option String := none
  wallTime : Option ℚ := none
  timestamp : Option ℚ := none
  relativeMs : ℚ := 0

/-- `TimelineMarker` from the frontend type declarations. -/
structure TimelineMarker where
  timeMs : ℚ
  color : String
  label : String
  deriving DecidableEq

/-! ## Resource Classifier (`getFilterType`, NetworkViewer) -/

/-- `TYPE_MAP` from NetworkViewer: declared resource type → filter key,
in object insertion order. -/
def TYPE_MAP : List (String × List String) :=
  [("fetch", ["XHR", "Fetch"]),
   ("js", ["Script"]),
   ("css", ["Stylesheet"]),
   ("img", ["Image"]),
   ("doc", ["Document"]),
   ("font", ["Font"]),
   ("media", ["Media"]),
   ("ws", ["WebSocket"])]

/-- `STATIC_EXT_MAP` from NetworkViewer: path extension → filter key. -/
def STATIC_EXT_MAP : List (String × String) :=
  [(".js", "js"), (".mjs", "js"), (".cjs", "js"), (".map", "js"),
   (".css", "css"),
   (".png", "img"), (".jpg", "img"), (".jpeg", "img"), (".gif", "img"),
   (".svg", "img"), (".webp", "img"), (".ico", "img"), (".avif", "img"),
   (".woff", "font"), (".woff2", "font"), (".ttf", "font"),
   (".eot", "font"), (".otf", "font"),
   (".mp4", "media"), (".webm", "media"), (".mp3", "media"),
   (".ogg", "media"), (".wav", "media"),
   (".html", "doc"), (".htm", "doc")]

/-- Characters strictly before the first occurrence of `stop`. -/
def takeBefore (stop : Char) : List Char → List Char
  | [] => []
  | c :: rest => if c = stop then [] else c :: takeBefore stop rest

/-- The suffix starting at the first occurrence of `stop` (empty when
`stop` is absent). -/
def fromFirst (stop : Char) : List Char → List Char
  | [] => []
  | c :: rest => if c = stop then c :: rest else fromFirst stop rest

/-- `String.prototype.toLowerCase`, modelled per character. -/
def strToLower (s : String) : String := ⟨s.toList.map Char.toLower⟩

/-- Shallow model of `new URL(url, "http://x").pathname` for the http(s)
URLs the viewer sees.  An absolute http(s) URL is split into host and
path (fragment and query stripped); a whitespace-containing or empty
host makes the constructor throw, modelled as `none`.  Any other string
resolves relative to the base `http://x/`, giving an absolute path. -/
def urlPathname (url : String) : Option String :=
  let noFrag := takeBefore '#' url.toList
  if "http://".toList.isPrefixOf noFrag ∨ "https://".toList.isPrefixOf noFrag then
    let rest := if "http://".toList.isPrefixOf noFrag then noFrag.drop 7 else noFrag.drop 8
    let hostPart := takeBefore '/' rest
    let host := takeBefore '?' hostPart
    if host = [] ∨ host.contains ' ' then none
    else
      let path := takeBefore '?' (fromFirst '/' rest)
      some ⟨if path = [] then ['/'] else path⟩
  else
    let noQuery := takeBefore '?' noFrag
    some ⟨if noQuery.headD ' ' = '/' then noQuery else '/' :: noQuery⟩

/-- The suffix of `s` starting at the last occurrence of `'.'`
(`pathname.slice(pathname.lastIndexOf("."))`); `none` when
`lastIndexOf` returns `-1`. -/
def lastDotSuffixAux : List Char → Option (List Char)
  | [] => none
  | c :: rest =>
    match lastDotSuffixAux rest with
    | some suf => some suf
    | none => if c = '.' then some (c :: rest) else none

def lastDotSuffix (s : String) : Option String :=
  (lastDotSuffixAux s.toList).map (fun l => ⟨l⟩)

/-- `entry.request?.url || entry.url || ""`. -/
def entryUrl (e : NetworkLogEntry) : String :=
  jsOrD (jsOrO (e.request.bind NetworkRequestInfo.url) e.url) ""

/-- `getFilterType` from NetworkViewer: declared-type table first, URL
extension refinement for generic XHR/Fetch, total fallbacks `"fetch"` /
`"other"`. -/
def getFilterType (e : NetworkLogEntry) : String :=
  let resourceType := jsOrD e.resourceType ""
  if resourceType = "XHR" ∨ resourceType = "Fetch" then
    match urlPathname (entryUrl e) with
    | some pathname =>
      match lastDotSuffix pathname with
      | some ext =>
        match STATIC_EXT_MAP.lookup (strToLower ext) with
        | some mapped => mapped
        | none => "fetch"
      | none => "fetch"
    | none => "fetch"
  else
    match TYPE_MAP.find? (fun kv => kv.2.contains resourceType) with
    | some kv => kv.1
    | none => "other"

/-! ## Timeline Correlation Engine

Both `useMemo` blocks (NetworkViewer lines 521-548, ConsoleViewer lines
762-786) run the same single pass: over the index-tagged entry list, an
entry is eligible iff `relativeMs <= currentTimeMs`; among eligible
entries the accumulator keeps the first index attaining the strictly
smallest `|relativeMs - currentTimeMs|` (`closestDist` starts at
`Infinity`, modelled by `none`); afterwards `closestIdx` is demoted to
`-1` when `closestDist >= 1500`.  The computation reads nothing but
`relativeMs` and the running index, so it is stated over the list of
`relativeMs` values. -/

/-- `Math.abs`: negate when negative. -/
def ratAbs (q : ℚ) : ℚ := if q < 0 then -q else q

/-- `Math.abs(relativeMs - currentTimeMs)`. -/
def distTo (t r : ℚ) : ℚ := ratAbs (r - t)

/-- One step of the closest-entry scan: accumulator is
`(closestIdx, closestDist)` with `none` as `Infinity`. -/
def closestFold (t : ℚ) (acc : Int × Option ℚ) (p : Nat × ℚ) : Int × Option ℚ :=
  if p.2 ≤ t then
    let d := distTo t p.2
    match acc.2 with
    | none => (Int.ofNat p.1, some d)
    | some d0 => if d < d0 then (Int.ofNat p.1, some d) else acc
  else acc

/-- The scan over the index-tagged `relativeMs` list, starting from
`closestIdx = -1`, `closestDist = Infinity`. -/
def closestRaw (t : ℚ) (rels : List ℚ) : Int × Option ℚ :=
  rels.enum.foldl (closestFold t) (-1, none)

/-- `closestIndex` as delivered by the `useMemo` block: the scan result
demoted to `-1` when the closest distance is `>= 1500` (or infinite). -/
def closestIndex (t : ℚ) (rels : List ℚ) : Int :=
  match closestRaw t rels with
  | (_, none) => -1
  | (i, some d) => if 1500 ≤ d then -1 else i

/-- The eligible ("visible before filtering") index-tagged sublist:
`relativeMs <= currentTimeMs`. -/
def eligibleEntries (t : ℚ) (rels : List ℚ) : List (Nat × ℚ) :=
  rels.enum.filter (fun p => p.2 ≤ t)

/-- NetworkViewer visible subset: eligible entries, then the active
type filter (`"all"` is the wildcard). -/
def visibleNetwork (t : ℚ) (activeTypeFilter : String)
    (entries : List NetworkLogEntry) : List (Nat × NetworkLogEntry) :=
  let visible := entries.enum.filter (fun p => p.2.relativeMs ≤ t)
  if activeTypeFilter = "all" then visible
  else visible.filter (fun p => getFilterType p.2 = activeTypeFilter)

/-- ConsoleViewer level helpers (`isNewFormat` is `source !==
undefined`). -/
def getLevel (e : ConsoleLogEntry) : String :=
  match e.source with
  | some s =>
    if s = "exception" then "error"
    else if s = "browser" then jsOrD e.level "info"
    else jsOrD e.level "log"
  | none => jsOrD e.level "log"

def getFilterLevel (e : ConsoleLogEntry) : String :=
  match e.source with
  | some s =>
    if s = "exception" then "exception"
    else if s = "browser" then "browser"
    else getLevel e
  | none => getLevel e

/-- ConsoleViewer visible subset: eligible entries, then the active
level filter (`"all"` is the wildcard). -/
def visibleConsole (t : ℚ) (activeFilter : String)
    (entries : List ConsoleLogEntry) : List (Nat × ConsoleLogEntry) :=
  let visible := entries.enum.filter (fun p => p.2.relativeMs ≤ t)
  if activeFilter = "all" then visible
  else visible.filter (fun p => getFilterLevel p.2 = activeFilter)

/-- The NetworkViewer `useMemo` result `{closestIndex, visibleEntries}`:
the closest index is computed over all eligible entries before the type
filter is applied. -/
def networkQuery (t : ℚ) (activeTypeFilter : String)
    (entries : List NetworkLogEntry) : Int × List (Nat × NetworkLogEntry) :=
  (closestIndex t (entries.map NetworkLogEntry.relativeMs),
   visibleNetwork t activeTypeFilter entries)

/-- The ConsoleViewer `useMemo` result `{closestIndex, visibleEntries}`. -/
def consoleQuery (t : ℚ) (activeFilter : String)
    (entries : List ConsoleLogEntry) : Int × List (Nat × ConsoleLogEntry) :=
  (closestIndex t (entries.map ConsoleLogEntry.relativeMs),
   visibleConsole t activeFilter entries)

/-! ## Bundle Normalizer (`App`, VideoPlayer.tsx lines 947-979) -/

/-- Console normalization: attach `relativeMs = timestamp - st`, then
sort ascending by the comparator `a.timestamp - b.timestamp`.  The
source's stable `Array.prototype.sort` is modelled by a stable sort
(insertion sort). -/
def normalizeConsole (st : ℚ) (raw : List ConsoleLogEntry) : List ConsoleLogEntry :=
  (raw.map (fun e => { e with relativeMs := e.timestamp - st })).insertionSort
    (fun a b => a.timestamp ≤ b.timestamp)

/-- Network `relativeMs`: `wallTime` (seconds, truthy) preferred, then
`timestamp` (seconds, truthy), else `0`. -/
def networkRelativeMs (st : ℚ) (e : NetworkLogEntry) : ℚ :=
  if jsNumTruthy e.wallTime then (e.wallTime.getD 0) * 1000 - st
  else if jsNumTruthy e.timestamp then (e.timestamp.getD 0) * 1000 - st
  else 0

/-- Network normalization: attach `relativeMs`, then sort ascending by
the comparator `a.relativeMs - b.relativeMs` (stable sort, as for the
console stream). -/
def normalizeNetwork (st : ℚ) (raw : List NetworkLogEntry) : List NetworkLogEntry :=
  (raw.map (fun e => { e with relativeMs := networkRelativeMs st e })).insertionSort
    (fun a b => a.relativeMs ≤ b.relativeMs)

/-! ## Structured Value Renderer (ConsoleViewer helpers) -/

/-- `escapeHtml` from ConsoleViewer.  The source applies four global
replaces in sequence (`&`, `<`, `>`, `"`); since no replacement output
contains a later-replaced character, this equals the per-character map. -/
def escapeChar (c : Char) : String :=
  if c = '&' then "&amp;"
  else if c = '<' then "&lt;"
  else if c = '>' then "&gt;"
  else if c = '"' then "&quot;"
  else String.singleton c

def escapeHtml (s : String) : String :=
  String.join (s.toList.map escapeChar)

/-- A kind-tagged highlighting span as emitted by the renderer. -/
def span (cls : String) (content : String) : String :=
  "<span class=\"" ++ cls ++ "\">" ++ content ++ "</span>"

/-- The empty-or-missing-properties branch of `renderPreview`:
`"[]"` for arrays, else `` `${className} {}` `` when `className` is
truthy, else `"{}"` (the `overflow` flag is not consulted here). -/
def renderEmptyPreview (subtype : Option String) (className : Option String) : String :=
  if subtype = some "array" then "[]"
  else
    match className with
    | some c => if c = "" then "\x7b\x7d" else c ++ " \x7b\x7d"
    | none => "\x7b\x7d"

mutual

/-- `renderPreview` from ConsoleViewer: empty/missing property list
renders as empty brackets; otherwise comma-joined property renderings
inside `[...]` (arrays, no keys) or `{...}` (objects, `key: value`,
class-name prefix when present and not `"Object"`), with `", ..."`
appended before the closing bracket when `overflow` is set. -/
def renderPreview : ObjectPreviewValue → Option String → String
  | .mk st _ ov props, className =>
    match props with
    | none => renderEmptyPreview st className
    | some [] => renderEmptyPreview st className
    | some (p :: ps) =>
      let isArray := st = some "array"
      let openB :=
        if isArray then "["
        else
          match className with
          | some c => if c = "" ∨ c = "Object" then "\x7b" else c ++ " \x7b"
          | none => "\x7b"
      let closeB := if isArray then "]" else "\x7d"
      let propsText := String.intercalate ", " (renderProps isArray (p :: ps))
      let overflowText := if ov then ", ..." else ""
      openB ++ propsText ++ overflowText ++ closeB

/-- The `preview.properties.map(...)` body: array elements render bare,
object properties render as `name: value` with the name in a span. -/
def renderProps : Bool → List PropertyPreviewValue → List String
  | _, [] => []
  | isArray, p :: rest =>
    (if isArray then renderPreviewValue p
     else span "text-gh-purple" (escapeHtml p.name) ++ ": " ++ renderPreviewValue p)
      :: renderProps isArray rest

/-- `renderPreviewValue` from ConsoleViewer: a nested `valuePreview`
wins (recursing with its own `description` as class name); otherwise
the flat `value` renders by tag. -/
def renderPreviewValue : PropertyPreviewValue → String
  | .mk _ ty val st vp =>
    match vp with
    | some p => renderPreview p p.description
    | none =>
      if ty = "string" then span "text-gh-blue-str" ("\"" ++ escapeHtml (jsOrD val "") ++ "\"")
      else if ty = "number" ∨ ty = "bigint" then span "text-gh-blue-num" (jsInterp val)
      else if ty = "boolean" then span "text-gh-blue-num" (jsInterp val)
      else if ty = "undefined" then span "text-gh-secondary" "undefined"
      else if ty = "function" then span "text-gh-purple italic" "ƒ"
      else if ty = "object" then
        if st = some "null" then span "text-gh-secondary" "null"
        else span "text-gh-secondary" (escapeHtml (jsOrD val "Object"))
      else escapeHtml (jsOrD val "")

end

/-- `renderObjectPreview` from ConsoleViewer: special-cased subtypes,
then preview delegation, then the description/class-name fallback. -/
def renderObjectPreview (obj : RemoteObjectValue) : String :=
  if obj.subtype = some "null" then span "text-gh-secondary" "null"
  else if obj.subtype = some "error" then
    span "text-gh-error whitespace-pre-wrap" (escapeHtml (jsOrD obj.description "Error"))
  else if obj.subtype = some "regexp" then
    span "text-gh-orange" (escapeHtml (jsOrD obj.description ""))
  else if obj.subtype = some "date" then
    span "text-gh-blue-str" (escapeHtml (jsOrD obj.description ""))
  else
    match obj.preview with
    | some p => renderPreview p obj.className
    | none => span "text-gh-secondary" (escapeHtml (jsOrD (jsOrO obj.description obj.className) "Object"))

/-- `renderRemoteObject` from ConsoleViewer, dispatching on the value
tag. -/
def renderRemoteObject (obj : RemoteObjectValue) : String :=
  if obj.type = "undefined" then span "text-gh-secondary" "undefined"
  else if obj.type = "boolean" then span "text-gh-blue-num" (jsInterp obj.value)
  else if obj.type = "number" then
    span "text-gh-blue-num" (jsInterp (jsOrO obj.description obj.value))
  else if obj.type = "bigint" then
    span "text-gh-blue-num" (jsInterp (jsOrO obj.description obj.value) ++ "n")
  else if obj.type = "string" then
    span "text-gh-blue-str"
      (escapeHtml (match obj.value with | some v => v | none => jsOrD obj.description ""))
  else if obj.type = "symbol" then
    span "text-gh-purple" (escapeHtml (jsOrD obj.description "Symbol()"))
  else if obj.type = "function" then
    span "text-gh-purple italic" ("ƒ " ++ escapeHtml (jsOrD obj.description "anonymous"))
  else if obj.type = "object" then renderObjectPreview obj
  else escapeHtml (jsOrD obj.description (jsInterp obj.value))

/-- Text content of an emitted markup string: characters outside
`<...>` tags.  Reading device for stating what the rendered *text* is. -/
def stripTagsAux : List Char → Bool → List Char
  | [], _ => []
  | c :: rest, inTag =>
    if c = '<' then stripTagsAux rest true
    else if c = '>' then stripTagsAux rest false
    else if inTag then stripTagsAux rest true
    else c :: stripTagsAux rest false

def stripTags (s : String) : String :=
  ⟨stripTagsAux s.toList false⟩

/-! ## Marker Projector (`App` markers useMemo, lines 993-1023) -/

/-- The marker-level conditional inlined in `App`: exceptions are
error-level; browser-chrome entries use their own level defaulting to
`"info"`; plain entries default to `"log"`. -/
def markerConsoleLevel (e : ConsoleLogEntry) : String :=
  if e.source = some "exception" then "error"
  else if e.source = some "browser" then jsOrD e.level "info"
  else jsOrD e.level "log"

/-- `entry.message || entry.args?.[0]?.description || ""`. -/
def markerMessage (e : ConsoleLogEntry) : String :=
  jsOrD (jsOrO e.message ((e.args.bind List.head?).bind RemoteObjectValue.description)) ""

/-- The red marker pushed for an error-level console entry. -/
def consoleMarker (e : ConsoleLogEntry) : TimelineMarker :=
  ⟨e.relativeMs, "#f85149", "Error: " ++ jsSlice 80 (markerMessage e)⟩

/-- `entry.request?.method || entry.method || "GET"`. -/
def entryMethod (e : NetworkLogEntry) : String :=
  jsOrD (jsOrO (e.request.bind NetworkRequestInfo.method) e.method) "GET"

/-- The blue marker pushed for every network entry. -/
def networkMarker (e : NetworkLogEntry) : TimelineMarker :=
  ⟨e.relativeMs, "#58a6ff", jsSlice 80 (entryMethod e ++ " " ++ entryUrl e)⟩

/-- The `markers` useMemo: error-level console markers in stream order,
followed by one marker per network entry. -/
def projectMarkers (consoleLogs : List ConsoleLogEntry)
    (networkRequests : List NetworkLogEntry) : List TimelineMarker :=
  consoleLogs.filterMap
    (fun e => if markerConsoleLevel e = "error" then some (consoleMarker e) else none)
    ++ networkRequests.map networkMarker

/-! ## Derived notions used in statements -/

/-- `FILTER_TYPES` from NetworkViewer (the filter button row). -/
def FILTER_TYPES : List String :=
  ["all", "fetch", "js", "css", "img", "doc", "font", "media", "ws", "other"]

/-- The concrete (non-wildcard) network filter categories. -/
def concreteCategories : List String :=
  ["fetch", "js", "css", "img", "doc", "font", "media", "ws", "other"]

/-- Invariant of the closest-entry scan: relates the accumulator to the
already-processed prefix `l`.  With distance `none` (Infinity) nothing
eligible has been seen and the index is still `-1`; with distance
`some d`, some processed eligible entry realises index and distance,
and `d` is minimal among processed eligible entries. -/
def ClosestInv (t : ℚ) (l : List (Nat × ℚ)) : Int × Option ℚ → Prop
  | (i, none) => i = -1 ∧ ∀ p ∈ l, ¬ p.2 ≤ t
  | (i, some d) =>
      (∃ p ∈ l, p.2 ≤ t ∧ distTo t p.2 = d ∧ i = Int.ofNat p.1) ∧
      ∀ p ∈ l, p.2 ≤ t → d ≤ distTo t p.2

/-! ## Supporting lemmas -/

/-- One scan step preserves the closest-entry invariant. -/
theorem closestFold_inv {t : ℚ} {l : List (Nat × ℚ)} {acc : Int × Option ℚ}
    (p : Nat × ℚ) (h : ClosestInv t l acc) :
    ClosestInv t (l ++ [p]) (closestFold t acc p) := by
  obtain ⟨i, od⟩ := acc
  by_cases hp : p.2 ≤ t
  · cases od with
    | none =>
      obtain ⟨-, hall⟩ := h
      simp only [closestFold, hp, if_true]
      refine ⟨⟨p, by simp, hp, rfl, rfl⟩, ?_⟩
      intro q hq hqle
      rcases List.mem_append.1 hq with hq | hq
      · exact absurd hqle (hall q hq)
      · rw [List.mem_singleton.1 hq]
    | some d0 =>
      obtain ⟨⟨q, hqmem, hqle, hqd, hqi⟩, hmin⟩ := h
      simp only [closestFold, hp, if_true]
      by_cases hd : distTo t p.2 < d0
      · simp only [hd, if_true]
        refine ⟨⟨p, by simp, hp, rfl, rfl⟩, ?_⟩
        intro r hr hrle
        rcases List.mem_append.1 hr with hr | hr
        · exact le_of_lt (lt_of_lt_of_le hd (hmin r hr hrle))
        · rw [List.mem_singleton.1 hr]
      · simp only [hd, if_false]
        refine ⟨⟨q, List.mem_append_left _ hqmem, hqle, hqd, hqi⟩, ?_⟩
        intro r hr hrle
        rcases List.mem_append.1 hr with hr | hr
        · exact hmin r hr hrle
        · rw [List.mem_singleton.1 hr]; exact le_of_not_lt hd
  · have hacc : closestFold t (i, od) p = (i, od) := by
      simp only [closestFold, hp, if_false]
    rw [hacc]
    cases od with
    | none =>
      obtain ⟨hi, hall⟩ := h
      refine ⟨hi, ?_⟩
      intro q hq
      rcases List.mem_append.1 hq with hq | hq
      · exact hall q hq
      · rw [List.mem_singleton.1 hq]; exact hp
    | some d0 =>
      obtain ⟨⟨q, hqmem, hqle, hqd, hqi⟩, hmin⟩ := h
      refine ⟨⟨q, List.mem_append_left _ hqmem, hqle, hqd, hqi⟩, ?_⟩
      intro r hr hrle
      rcases List.mem_append.1 hr with hr | hr
      · exact hmin r hr hrle
      · exact absurd hrle (by rw [List.mem_singleton.1 hr] at hrle ⊢; exact fun _ => hp hrle)

/-- Folding the scan over a suffix preserves the invariant. -/
theorem foldl_closestFold_inv (t : ℚ) :
    ∀ (rest l : List (Nat × ℚ)) (acc : Int × Option ℚ),
      ClosestInv t l acc →
      ClosestInv t (l ++ rest) (rest.foldl (closestFold t) acc)
  | [], l, acc, h => by simpa using h
  | p :: rest, l, acc, h => by
    have h' := closestFold_inv p h
    have hrec := foldl_closestFold_inv t rest (l ++ [p]) (closestFold t acc p) h'
    simpa [List.append_assoc] using hrec

/-- The completed scan satisfies the invariant over the whole stream. -/
theorem closestRaw_inv (t : ℚ) (rels : List ℚ) :
    ClosestInv t rels.enum (closestRaw t rels) := by
  have h0 : ClosestInv t [] ((-1 : Int), (none : Option ℚ)) := by
    exact ⟨rfl, by simp⟩
  simpa [closestRaw] using foldl_closestFold_inv t rels.enum [] (-1, none) h0

/-- A successful association-list lookup returns one of the stored
values. -/
theorem lookup_mem_values {α β : Type} [BEq α] :
    ∀ (l : List (α × β)) (k : α) (v : β), l.lookup k = some v → v ∈ l.map Prod.snd
  | [], _, _, h => by simp [List.lookup] at h
  | (k', v') :: rest, k, v, h => by
    rw [List.lookup] at h
    cases hk : k == k' with
    | true => rw [hk] at h; simp at h; simp [h]
    | false =>
      rw [hk] at h
      simpa using Or.inr (lookup_mem_values rest k v h)

/-- The classifier only ever produces one of the nine concrete
categories. -/
theorem getFilterType_mem (e : NetworkLogEntry) :
    getFilterType e ∈ concreteCategories := by
  simp only [getFilterType]
  split
  · split
    · split
      · split
        · next m hm =>
            have hv := lookup_mem_values STATIC_EXT_MAP _ m hm
            have hall : ∀ x ∈ STATIC_EXT_MAP.map Prod.snd, x ∈ concreteCategories := by
              decide
            exact hall m hv
        · decide
      · decide
    · decide
  · split
    · next kv hkv =>
        have hmem := List.mem_of_find?_eq_some hkv
        have hall : ∀ kv ∈ TYPE_MAP, kv.1 ∈ concreteCategories := by decide
        exact hall kv hmem
    · decide

/-- Membership in the wildcard visible subset. -/
theorem mem_visibleNetwork_all {t : ℚ} {es : List NetworkLogEntry}
    {p : Nat × NetworkLogEntry} :
    p ∈ visibleNetwork t "all" es ↔ p ∈ es.enum ∧ p.2.relativeMs ≤ t := by
  simp [visibleNetwork, List.mem_filter]

/-- Membership in a non-wildcard visible subset. -/
theorem mem_visibleNetwork_of_ne {t : ℚ} {es : List NetworkLogEntry}
    {p : Nat × NetworkLogEntry} {c : String} (hc : ¬ c = "all") :
    p ∈ visibleNetwork t c es ↔
      p ∈ es.enum ∧ p.2.relativeMs ≤ t ∧ getFilterType p.2 = c := by
  simp only [visibleNetwork, if_neg hc, List.mem_filter, decide_eq_true_eq]
  tauto

/-- Membership in the wildcard console visible subset. -/
theorem mem_visibleConsole_all {t : ℚ} {cs : List ConsoleLogEntry}
    {p : Nat × ConsoleLogEntry} :
    p ∈ visibleConsole t "all" cs ↔ p ∈ cs.enum ∧ p.2.relativeMs ≤ t := by
  simp [visibleConsole, List.mem_filter]

/-- Membership in a non-wildcard console visible subset. -/
theorem mem_visibleConsole_of_ne {t : ℚ} {cs : List ConsoleLogEntry}
    {p : Nat × ConsoleLogEntry} {c : String} (hc : ¬ c = "all") :
    p ∈ visibleConsole t c cs ↔
      p ∈ cs.enum ∧ p.2.relativeMs ≤ t ∧ getFilterLevel p.2 = c := by
  simp only [visibleConsole, if_neg hc, List.mem_filter, decide_eq_true_eq]
  tauto

/-- `filterMap` of a guarded `some` is `filter` then `map`. -/
theorem filterMap_ite {α β : Type} (p : α → Prop) [DecidablePred p] (f : α → β) :
    ∀ l : List α,
      (l.filterMap fun a => if p a then some (f a) else none)
        = (l.filter fun a => decide (p a)).map f
  | [] => rfl
  | a :: l => by
    by_cases h : p a <;>
      simp [List.filterMap_cons, List.filter_cons, h, filterMap_ite p f l]

/-! ## Claim theorems -/

/-- C1.  Nearest-window boundary, for the closest-index computation
shared by both viewers: when some eligible event lies strictly within
1500 ms of playback time, the reported nearest index is an eligible
event of minimal distance (strictly below 1500 ms); when every eligible
event is at distance 1500 ms or more (in particular when a sole
eligible event sits exactly at 1500 ms), the nearest index degrades to
`-1` ("none"). -/
theorem nearest_window_boundary (t : ℚ) (rels : List ℚ) :
    ((∃ p ∈ rels.enum, p.2 ≤ t ∧ distTo t p.2 < 1500) →
      ∃ p ∈ rels.enum, closestIndex t rels = Int.ofNat p.1 ∧ p.2 ≤ t ∧
        distTo t p.2 < 1500 ∧
        ∀ q ∈ rels.enum, q.2 ≤ t → distTo t p.2 ≤ distTo t q.2) ∧
    ((∀ p ∈ rels.enum, p.2 ≤ t → 1500 ≤ distTo t p.2) → closestIndex t rels = -1) := by
  have hinv := closestRaw_inv t rels
  rcases hraw : closestRaw t rels with ⟨i, od⟩
  rw [hraw] at hinv
  constructor
  · rintro ⟨p, hpmem, hple, hpd⟩
    cases od with
    | none => exact absurd hple (hinv.2 p hpmem)
    | some d =>
      obtain ⟨⟨q, hqmem, hqle, hqd, hqi⟩, hmin⟩ := hinv
      have hdlt : d < 1500 := lt_of_le_of_lt (hmin p hpmem hple) hpd
      refine ⟨q, hqmem, ?_, hqle, ?_, ?_⟩
      · simp [closestIndex, hraw, not_le.2 hdlt, hqi]
      · rw [hqd]; exact hdlt
      · intro r hr hrle; rw [hqd]; exact hmin r hr hrle
  · intro hall
    cases od with
    | none => simp [closestIndex, hraw]
    | some d =>
      obtain ⟨⟨q, hqmem, hqle, hqd, hqi⟩, hmin⟩ := hinv
      have h15 : 1500 ≤ d := hqd ▸ hall q hqmem hqle
      simp [closestIndex, hraw, h15]

/-- Witness for C1: a stream `[0, 10]` at playback 12 reports eligible
index 1 (distance 2), and a sole event at distance 2000 reports none. -/
theorem nearest_window_boundary_witness :
    (∃ p ∈ ([0, 10] : List ℚ).enum, closestIndex 12 [0, 10] = Int.ofNat p.1 ∧
      p.2 ≤ 12 ∧ distTo 12 p.2 < 1500 ∧
      ∀ q ∈ ([0, 10] : List ℚ).enum, q.2 ≤ 12 → distTo 12 p.2 ≤ distTo 12 q.2) ∧
    closestIndex 2000 [0] = -1 :=
  ⟨(nearest_window_boundary 12 [0, 10]).1
    ⟨(1, 10), by simp [List.enum, List.enumFrom], by norm_num,
      by norm_num [distTo, ratAbs]⟩,
   (nearest_window_boundary 2000 [0]).2 (by
    intro p hp
    simp [List.enum, List.enumFrom] at hp
    subst hp
    norm_num [distTo, ratAbs])⟩

/-- C2.  End-to-end scenario: with `startTime = 1000`, a console event
at epoch 1500 normalizes to `relativeMs = 500` and a network event at
wall-clock epoch 2200 ms (`wallTime = 2.2 s`) to `relativeMs = 1200`;
at playback 600 the console nearest is that event (distance 100 < 1500)
while the network stream has no eligible event (nearest none, empty
visible subset); at playback 1300 both are eligible and each stream's
nearest is its event (network distance 100). -/
theorem end_to_end_scenario :
    (normalizeConsole 1000 [{ timestamp := 1500, message := some "hello" }]).map
        ConsoleLogEntry.relativeMs = [500] ∧
    (normalizeNetwork 1000 [{ wallTime := some (11/5), url := some "http://a/b" }]).map
        NetworkLogEntry.relativeMs = [1200] ∧
    (consoleQuery 600 "all"
        (normalizeConsole 1000 [{ timestamp := 1500, message := some "hello" }])).1 = 0 ∧
    (networkQuery 600 "all"
        (normalizeNetwork 1000 [{ wallTime := some (11/5), url := some "http://a/b" }])).1 = -1 ∧
    (networkQuery 600 "all"
        (normalizeNetwork 1000 [{ wallTime := some (11/5), url := some "http://a/b" }])).2 = [] ∧
    (consoleQuery 1300 "all"
        (normalizeConsole 1000 [{ timestamp := 1500, message := some "hello" }])).1 = 0 ∧
    (networkQuery 1300 "all"
        (normalizeNetwork 1000 [{ wallTime := some (11/5), url := some "http://a/b" }])).1 = 0 ∧
    distTo 600 500 = 100 ∧ distTo 1300 1200 = 100 ∧ (100 : ℚ) < 1500 := by
  norm_num [normalizeConsole, normalizeNetwork, List.insertionSort, List.orderedInsert,
    networkRelativeMs, jsNumTruthy, consoleQuery, networkQuery, closestIndex, closestRaw,
    closestFold, visibleNetwork, visibleConsole, List.enum, List.enumFrom, distTo, ratAbs]

/-- C3.  Visibility is monotone in playback time for both streams under
any fixed filter: everything visible at `t1 < t2` is visible at `t2`. -/
theorem visibility_monotone (t1 t2 : ℚ) (f : String)
    (es : List NetworkLogEntry) (cs : List ConsoleLogEntry) (h : t1 < t2) :
    (∀ p ∈ visibleNetwork t1 f es, p ∈ visibleNetwork t2 f es) ∧
    (∀ p ∈ visibleConsole t1 f cs, p ∈ visibleConsole t2 f cs) := by
  constructor
  · intro p hp
    by_cases hf : f = "all"
    · subst hf
      rw [mem_visibleNetwork_all] at hp ⊢
      exact ⟨hp.1, le_trans hp.2 (le_of_lt h)⟩
    · rw [mem_visibleNetwork_of_ne hf] at hp ⊢
      exact ⟨hp.1, le_trans hp.2.1 (le_of_lt h), hp.2.2⟩
  · intro p hp
    by_cases hf : f = "all"
    · subst hf
      rw [mem_visibleConsole_all] at hp ⊢
      exact ⟨hp.1, le_trans hp.2 (le_of_lt h)⟩
    · rw [mem_visibleConsole_of_ne hf] at hp ⊢
      exact ⟨hp.1, le_trans hp.2.1 (le_of_lt h), hp.2.2⟩

/-- Witness for C3: an event visible at playback 5 is still visible at
playback 10, in both streams. -/
theorem visibility_monotone_witness :
    ((0, ({ relativeMs := 3 } : NetworkLogEntry)) ∈
      visibleNetwork 10 "all" [{ relativeMs := 3 }]) ∧
    ((0, ({ relativeMs := 3 } : ConsoleLogEntry)) ∈
      visibleConsole 10 "all" [{ relativeMs := 3 }]) :=
  ⟨(visibility_monotone 5 10 "all" [{ relativeMs := 3 }] [] (by norm_num)).1 _
      (by rw [mem_visibleNetwork_all]
          exact ⟨by simp [List.enum, List.enumFrom], by norm_num⟩),
   (visibility_monotone 5 10 "all" [] [{ relativeMs := 3 }] (by norm_num)).2 _
      (by rw [mem_visibleConsole_all]
          exact ⟨by simp [List.enum, List.enumFrom], by norm_num⟩)⟩

/-- C4.  Filter completeness for the network viewer: every event in the
wildcard visible subset is classified into exactly one of the nine
concrete categories and appears in exactly that category's visible
subset, and every concrete category's visible subset is contained in
the wildcard one — so `visible(t, "all")` is the disjoint union of the
`visible(t, c)`. -/
theorem filter_completeness (t : ℚ) (es : List NetworkLogEntry) :
    (∀ p ∈ visibleNetwork t "all" es,
        getFilterType p.2 ∈ concreteCategories ∧
        p ∈ visibleNetwork t (getFilterType p.2) es ∧
        ∀ c ∈ concreteCategories, p ∈ visibleNetwork t c es → c = getFilterType p.2) ∧
    (∀ c ∈ concreteCategories, ∀ p ∈ visibleNetwork t c es, p ∈ visibleNetwork t "all" es) := by
  constructor
  · intro p hp
    rw [mem_visibleNetwork_all] at hp
    have hcat := getFilterType_mem p.2
    have hne : ¬ getFilterType p.2 = "all" := by
      intro hh; rw [hh] at hcat; revert hcat; decide
    refine ⟨hcat, ?_, ?_⟩
    · rw [mem_visibleNetwork_of_ne hne]; exact ⟨hp.1, hp.2, rfl⟩
    · intro c hc hpc
      have hcne : ¬ c = "all" := by intro hh; rw [hh] at hc; revert hc; decide
      rw [mem_visibleNetwork_of_ne hcne] at hpc
      exact hpc.2.2.symm
  · intro c hc p hp
    have hcne : ¬ c = "all" := by intro hh; rw [hh] at hc; revert hc; decide
    rw [mem_visibleNetwork_of_ne hcne] at hp
    rw [mem_visibleNetwork_all]
    exact ⟨hp.1, hp.2.1⟩

/-- Witness for C4: a Script entry visible under the wildcard belongs
to its own category's visible subset. -/
theorem filter_completeness_witness :
    (0, ({ resourceType := some "Script", relativeMs := 0 } : NetworkLogEntry)) ∈
      visibleNetwork 10
        (getFilterType { resourceType := some "Script", relativeMs := 0 })
        [{ resourceType := some "Script", relativeMs := 0 }] := by
  have hmem : (0, ({ resourceType := some "Script", relativeMs := 0 } : NetworkLogEntry)) ∈
      visibleNetwork 10 "all" [{ resourceType := some "Script", relativeMs := 0 }] := by
    rw [mem_visibleNetwork_all]
    exact ⟨by simp [List.enum, List.enumFrom], by norm_num⟩
  exact ((filter_completeness 10 _).1 _ hmem).2.1

/-- C5.  Classifier determinism: XHR with a `.png` path (query string
included) is image-category (`"img"`); declared `Script` is `"js"`
regardless of every other field including the URL; XHR with an
unparseable URL is `"fetch"`; a declared type matching no known type is
`"other"`.  (`getFilterType` is a total Lean function, so purity and
totality hold by construction.) -/
theorem classifier_determinism :
    getFilterType { resourceType := some "XHR", url := some "https://x.test/a.png?x=1" } = "img" ∧
    (∀ (req : Option NetworkRequestInfo) (m u : Option String) (w ts : Option ℚ) (r : ℚ),
      getFilterType { request := req, method := m, url := u,
                      resourceType := some "Script", wallTime := w,
                      timestamp := ts, relativeMs := r } = "js") ∧
    getFilterType { resourceType := some "XHR", url := some "http://a b/c.png" } = "fetch" ∧
    (∀ e : NetworkLogEntry,
      jsOrD e.resourceType "" ∉ ["XHR", "Fetch", "Script", "Stylesheet", "Image",
        "Document", "Font", "Media", "WebSocket"] → getFilterType e = "other") := by
  refine ⟨by decide, fun req m u w ts r => rfl, by decide, ?_⟩
  intro e h
  simp only [List.mem_cons, List.not_mem_nil, or_false, not_or] at h
  obtain ⟨h1, h2, h3, h4, h5, h6, h7, h8, h9⟩ := h
  have hf : TYPE_MAP.find? (fun kv => kv.2.contains (jsOrD e.resourceType "")) = none := by
    rw [List.find?_eq_none]
    intro kv hkv
    simp only [TYPE_MAP, List.mem_cons, List.not_mem_nil, or_false] at hkv
    rcases hkv with rfl | rfl | rfl | rfl | rfl | rfl | rfl | rfl <;>
      simp_all [List.contains]
  simp only [getFilterType, hf]
  rw [if_neg (by tauto)]

/-- Witness for C5: an unknown declared type classifies as `"other"`. -/
theorem classifier_determinism_witness :
    (jsOrD (NetworkLogEntry.resourceType { resourceType := some "Blob" }) ""
       ∉ ["XHR", "Fetch", "Script", "Stylesheet", "Image",
          "Document", "Font", "Media", "WebSocket"]) ∧
    getFilterType { resourceType := some "Blob" } = "other" :=
  ⟨by decide, classifier_determinism.2.2.2 { resourceType := some "Blob" } (by decide)⟩

/-- C9.  The nearest index is computed over all eligible events before
the category filter is applied, so it never depends on the active
filter; consequently it can name an event outside the filter-scoped
visible subset, as the concrete instance shows (an eligible XHR entry
is the nearest at index 0 while the `"js"`-filtered visible subset is
empty). -/
theorem nearest_ignores_filter :
    (∀ (t : ℚ) (f : String) (es : List NetworkLogEntry) (cs : List ConsoleLogEntry),
      (networkQuery t f es).1 = (networkQuery t "all" es).1 ∧
      (consoleQuery t f cs).1 = (consoleQuery t "all" cs).1) ∧
    (networkQuery 100 "js" [{ resourceType := some "XHR", relativeMs := 0 }]).1 = 0 ∧
    (networkQuery 100 "js" [{ resourceType := some "XHR", relativeMs := 0 }]).2 = [] := by
  refine ⟨fun t f es cs => ⟨rfl, rfl⟩, ?_, ?_⟩
  · norm_num [networkQuery, closestIndex, closestRaw, closestFold, List.enum,
      List.enumFrom, distTo, ratAbs]
  · have hft : getFilterType { resourceType := some "XHR", relativeMs := 0 } = "fetch" := by
      decide
    norm_num [networkQuery, visibleNetwork, List.enum, List.enumFrom,
      List.filter_cons, List.filter_nil, hft]
    rw [if_neg (by decide : ¬ ("js" = "all")), if_neg (by decide : ¬ ("fetch" = "js"))]

/-- C6 counterexample: a preview with `overflow = true` and a present
but empty property list renders as plain `"[]"` — the empty-properties
branch returns before the overflow flag is consulted, so no ellipsis
marker (no `'.'` at all) appears in the output, contrary to the claim
that every overflow-flagged preview renders one. -/
theorem renderer_overflow_empty_counterexample :
    renderRemoteObject { type := "object", preview := some (ObjectPreviewValue.mk (some "array") none true (some [])) } = "[]" ∧
    (renderRemoteObject { type := "object", preview := some (ObjectPreviewValue.mk (some "array") none true (some [])) }).toList.count '.' = 0 := by
  have h : renderRemoteObject { type := "object", preview := some (ObjectPreviewValue.mk (some "array") none true (some [])) } = "[]" := by
    simp [renderRemoteObject, renderObjectPreview, renderPreview, renderEmptyPreview]
  exact ⟨h, by rw [h]; decide⟩

/-- C6 (amended).  Rendering `{type:"number", value:42}` yields a
literal containing `42`; an array preview with number properties 1 and
2 renders with text content `[1, 2]`, and with `overflow` set,
`[1, 2, ...]`; every preview whose overflow flag is true **and whose
property list is nonempty** renders an ellipsis marker immediately
before the closing bracket; an empty-but-present property list renders
as empty brackets (`[]`, or `ClassName {}`) regardless of the overflow
flag. -/
theorem renderer_preview_rules :
    (∃ a b, renderRemoteObject { type := "number", value := some "42" } = a ++ "42" ++ b) ∧
    stripTags (renderRemoteObject { type := "object", preview := some (ObjectPreviewValue.mk (some "array") none false (some [PropertyPreviewValue.mk "0" "number" (some "1") none none, PropertyPreviewValue.mk "1" "number" (some "2") none none])) }) = "[1, 2]" ∧
    stripTags (renderRemoteObject { type := "object", preview := some (ObjectPreviewValue.mk (some "array") none true (some [PropertyPreviewValue.mk "0" "number" (some "1") none none, PropertyPreviewValue.mk "1" "number" (some "2") none none])) }) = "[1, 2, ...]" ∧
    (∀ (st d cn : Option String) (p : PropertyPreviewValue) (ps : List PropertyPreviewValue),
      ∃ pre suf, renderPreview (ObjectPreviewValue.mk st d true (some (p :: ps))) cn =
        pre ++ (", ..." ++ suf) ∧ (suf = "]" ∨ suf = "\x7d")) ∧
    renderPreview (ObjectPreviewValue.mk (some "array") none true (some [])) none = "[]" ∧
    renderPreview (ObjectPreviewValue.mk none none true (some [])) (some "Cls") = "Cls \x7b\x7d" := by
  refine ⟨⟨"<span class=\"text-gh-blue-num\">", "</span>", by decide⟩, ?_, ?_, ?_,
    by simp [renderPreview, renderEmptyPreview], by simp [renderPreview, renderEmptyPreview]⟩
  · simp only [renderRemoteObject, renderObjectPreview, renderPreview, renderProps,
      renderPreviewValue, renderEmptyPreview, span, escapeHtml, escapeChar, jsOrD, jsOrO,
      jsInterp, RemoteObjectValue.type, ObjectPreviewValue.subtype,
      ObjectPreviewValue.description, ObjectPreviewValue.overflow,
      ObjectPreviewValue.properties, PropertyPreviewValue.name, PropertyPreviewValue.type,
      PropertyPreviewValue.value, PropertyPreviewValue.subtype,
      PropertyPreviewValue.valuePreview]
    decide
  · simp only [renderRemoteObject, renderObjectPreview, renderPreview, renderProps,
      renderPreviewValue, renderEmptyPreview, span, escapeHtml, escapeChar, jsOrD, jsOrO,
      jsInterp, RemoteObjectValue.type, ObjectPreviewValue.subtype,
      ObjectPreviewValue.description, ObjectPreviewValue.overflow,
      ObjectPreviewValue.properties, PropertyPreviewValue.name, PropertyPreviewValue.type,
      PropertyPreviewValue.value, PropertyPreviewValue.subtype,
      PropertyPreviewValue.valuePreview]
    decide
  · intro st d cn p ps
    by_cases harr : st = some "array"
    · refine ⟨"[" ++ String.intercalate ", " (renderProps true (p :: ps)), "]", ?_,
        Or.inl rfl⟩
      simp [renderPreview, harr, String.append_assoc]
    · refine ⟨(match cn with
        | some c => if c = "" ∨ c = "Object" then "\x7b" else c ++ " \x7b"
        | none => "\x7b") ++ String.intercalate ", " (renderProps false (p :: ps)),
        "\x7d", ?_, Or.inr rfl⟩
      simp [renderPreview, harr, String.append_assoc]

/-- C7 counterexample: a browser-chrome console event without an error
level produces no marker at all (browser events are not treated as
error-equivalent — they use their own level, defaulting to `"info"`),
and the marker for an exception event with message `"m"` is labeled
`"Error: m"`, not the bare truncated message `"m"`. -/
theorem marker_browser_counterexample :
    projectMarkers [{ source := some "browser", message := some "boom", relativeMs := 0 }] [] = [] ∧
    projectMarkers [{ source := some "exception", message := some "m", relativeMs := 0 }] [] =
      [{ timeMs := 0, color := "#f85149", label := "Error: m" }] := by
  constructor
  · simp [projectMarkers, markerConsoleLevel, jsOrD]
  · simp [projectMarkers, markerConsoleLevel, consoleMarker, markerMessage, jsOrD, jsOrO,
      jsSlice]

/-- C7 (amended).  The marker projector emits, for every console event
whose effective severity is `"error"` — where the exception source kind
is always error-equivalent but browser-chrome events use their own
level, defaulting to `"info"` — a red (`#f85149`) marker whose label is
`"Error: "` followed by the message (falling back to the first
argument's description) truncated to at most 80 characters; and for
every network event, regardless of status or error state, a blue
(`#58a6ff`) marker labeled `"<method> <url>"` truncated to at most 80
characters. -/
theorem marker_projection (logs : List ConsoleLogEntry) (nets : List NetworkLogEntry) :
    projectMarkers logs nets =
      (logs.filter fun e => decide (markerConsoleLevel e = "error")).map consoleMarker
        ++ nets.map networkMarker ∧
    (∀ e : ConsoleLogEntry, e.source = some "exception" → markerConsoleLevel e = "error") ∧
    (∀ e : ConsoleLogEntry, e.source = some "browser" →
      markerConsoleLevel e = jsOrD e.level "info") ∧
    (∀ e : ConsoleLogEntry, (consoleMarker e).color = "#f85149" ∧
      (consoleMarker e).label = "Error: " ++ jsSlice 80 (markerMessage e) ∧
      (jsSlice 80 (markerMessage e)).toList.length ≤ 80) ∧
    (∀ n : NetworkLogEntry, (networkMarker n).color = "#58a6ff" ∧
      (networkMarker n).label = jsSlice 80 (entryMethod n ++ " " ++ entryUrl n) ∧
      (networkMarker n).label.toList.length ≤ 80) := by
  refine ⟨?_, ?_, ?_, ?_, ?_⟩
  · unfold projectMarkers
    rw [filterMap_ite (fun e => markerConsoleLevel e = "error") consoleMarker logs]
  · intro e h; simp [markerConsoleLevel, h]
  · intro e h; simp [markerConsoleLevel, h]
  · intro e
    refine ⟨rfl, rfl, ?_⟩
    simp [jsSlice]
  · intro n
    refine ⟨rfl, rfl, ?_⟩
    simp [networkMarker, jsSlice]

/-- Witness for C7 (amended): an exception event is error-equivalent; a
browser event with level `"warning"` keeps that level. -/
theorem marker_projection_witness :
    markerConsoleLevel { source := some "exception" } = "error" ∧
    markerConsoleLevel { source := some "browser", level := some "warning" } =
      jsOrD (some "warning") "info" :=
  ⟨(marker_projection [] []).2.1 { source := some "exception" } rfl,
   (marker_projection [] []).2.2.1 { source := some "browser", level := some "warning" } rfl⟩

/-- C8.  Both normalized streams are sorted ascending by `relativeMs`
(the console comparator sorts by `timestamp`, which orders `relativeMs
= timestamp - st` identically, so this holds also for negative
`relativeMs`); each normalized stream is a permutation of the raw
stream with only `relativeMs` attached (`wallTime`, in seconds, is
preferred over `timestamp` by `networkRelativeMs`); and every
normalized console entry carries `relativeMs = timestamp - st`.  All
query operations in this development are pure functions over these
lists, so nothing re-sorts or mutates them afterwards. -/
theorem normalization_sorted (st : ℚ) (rawC : List ConsoleLogEntry)
    (rawN : List NetworkLogEntry) :
    List.Sorted (fun a b => a.relativeMs ≤ b.relativeMs) (normalizeConsole st rawC) ∧
    List.Sorted (fun a b => a.relativeMs ≤ b.relativeMs) (normalizeNetwork st rawN) ∧
    (normalizeConsole st rawC).Perm
      (rawC.map fun e => { e with relativeMs := e.timestamp - st }) ∧
    (normalizeNetwork st rawN).Perm
      (rawN.map fun e => { e with relativeMs := networkRelativeMs st e }) ∧
    (∀ e ∈ normalizeConsole st rawC, e.relativeMs = e.timestamp - st) := by
  haveI hc1 : IsTotal ConsoleLogEntry (fun a b => a.timestamp ≤ b.timestamp) :=
    ⟨fun a b => le_total _ _⟩
  haveI hc2 : IsTrans ConsoleLogEntry (fun a b => a.timestamp ≤ b.timestamp) :=
    ⟨fun _ _ _ => le_trans⟩
  haveI hn1 : IsTotal NetworkLogEntry (fun a b => a.relativeMs ≤ b.relativeMs) :=
    ⟨fun a b => le_total _ _⟩
  haveI hn2 : IsTrans NetworkLogEntry (fun a b => a.relativeMs ≤ b.relativeMs) :=
    ⟨fun _ _ _ => le_trans⟩
  have hmemC : ∀ e ∈ normalizeConsole st rawC, e.relativeMs = e.timestamp - st := by
    intro e he
    have hperm := List.perm_insertionSort
      (fun (a b : ConsoleLogEntry) => a.timestamp ≤ b.timestamp)
      (rawC.map fun e => { e with relativeMs := e.timestamp - st })
    have hmem := hperm.mem_iff.1 he
    obtain ⟨x, -, rfl⟩ := List.mem_map.1 hmem
    rfl
  refine ⟨?_, ?_, ?_, ?_, hmemC⟩
  · have hs := List.sorted_insertionSort
      (fun (a b : ConsoleLogEntry) => a.timestamp ≤ b.timestamp)
      (rawC.map fun e => { e with relativeMs := e.timestamp - st })
    refine hs.imp_of_mem ?_
    intro a b ha hb hab
    have ha' := hmemC a ha
    have hb' := hmemC b hb
    rw [ha', hb']
    exact sub_le_sub_right hab st
  · exact List.sorted_insertionSort _ _
  · exact List.perm_insertionSort _ _
  · exact List.perm_insertionSort _ _

/-- Witness for C8: a two-event stream (out of order, with negative
resulting `relativeMs`) normalizes to a sorted stream, and the
normalized entry of a raw event at timestamp 50 with `st = 100` carries
`relativeMs = -50 = timestamp - st`. -/
theorem normalization_sorted_witness :
    List.Sorted (fun a b => a.relativeMs ≤ b.relativeMs)
      (normalizeConsole 100 [{ timestamp := 50 }, { timestamp := 30 }]) ∧
    ConsoleLogEntry.relativeMs { timestamp := 50, relativeMs := -50 } =
      ConsoleLogEntry.timestamp { timestamp := 50, relativeMs := -50 } - 100 :=
  ⟨(normalization_sorted 100 [{ timestamp := 50 }, { timestamp := 30 }] []).1,
   (normalization_sorted 100 [{ timestamp := 50 }] []).2.2.2.2 _
    (by norm_num [normalizeConsole, List.insertionSort, List.orderedInsert])⟩

/-- C10.  A network record carrying neither `wallTime` nor `timestamp`
is assigned `relativeMs = 0` by normalization (the session-start
offset, so it sorts at the session start), and any entry with
`relativeMs = 0` is eligible — hence in the wildcard visible subset —
at every non-negative playback time. -/
theorem missing_timestamps_default (st : ℚ) (e : NetworkLogEntry)
    (hw : e.wallTime = none) (ht : e.timestamp = none) :
    networkRelativeMs st e = 0 ∧
    (∀ (es : List NetworkLogEntry) (t : ℚ), 0 ≤ t →
      ∀ p ∈ es.enum, p.2.relativeMs = 0 → p ∈ visibleNetwork t "all" es) := by
  constructor
  · simp [networkRelativeMs, jsNumTruthy, hw, ht]
  · intro es t ht0 p hp hp0
    rw [mem_visibleNetwork_all]
    exact ⟨hp, by rw [hp0]; exact ht0⟩

/-- Witness for C10: a record with neither time field gets
`relativeMs = 0` and is visible at playback 5. -/
theorem missing_timestamps_default_witness :
    networkRelativeMs 7 { url := some "u" } = 0 ∧
    ((0, ({ relativeMs := 0 } : NetworkLogEntry)) ∈
      visibleNetwork 5 "all" [{ relativeMs := 0 }]) :=
  ⟨(missing_timestamps_default 7 { url := some "u" } rfl rfl).1,
   (missing_timestamps_default 7 { url := some "u" } rfl rfl).2 [{ relativeMs := 0 }] 5
    (by norm_num) (0, { relativeMs := 0 }) (by simp [List.enum, List.enumFrom]) rfl⟩

end Tracing
